import Mathlib

/-!
Verification of the opening-range-breakout (ORB) backtest engine in
`src/first.py` (class `ORBStrategy`).

Embedding choices:

* Python floats (prices, capital, `risk_percent`) are modelled as exact
  rationals (`ℚ`); `int(...)` conversion is `pyInt` (truncation toward zero).
* pandas timestamps (`current_candle.name`) are modelled as minute counts
  (`ℕ`); `.time()` is the value modulo 1440 minutes (`tod`), and the
  `pd.Timestamp("09:35:00").time()` anchor is minute `575 = 9*60+35`.
* Python's `ZeroDivisionError` (raised by `calculate_position_size` when
  `entry_price == stop_loss`) is modelled with the `Except Err` monad; a run
  that raises corresponds to `.error .zeroDivisionError`.
* The loop-local variables of `ORBStrategy.backtest`
  (`entry_price`, `stop_loss`, `profit_target`, `position_size`,
  `entry_time`) persist across iterations in Python function scope; they are
  modelled as the `pending` record carried in `EngineState`.  They are
  initialised to zeros in `initState`; in Python they are unassigned until the
  first anchor bar, but they are only ever read when `position ≠ 0`, which
  first happens after they have been assigned.
* Instrumentation: each entry of the `trades` log is a pair
  `(Trade, direction)` where `Trade` is exactly the record the source appends
  and `direction` records the value of `self.position` at the moment
  `_close_trade` computed the pnl (`+1` long close, `-1` short close).  The
  direction is write-only bookkeeping; `backtest` projects it away, returning
  the trade list and final capital exactly as the source does.
-/

namespace ORB

/-- Python `int(...)` applied to a number: truncation toward zero. -/
def pyInt (q : ℚ) : ℤ := if q < 0 then -(Int.floor (-q)) else Int.floor q

/-- Time-of-day (in minutes) of a timestamp given as a minute count:
models `timestamp.time()`. -/
def tod (t : ℕ) : ℕ := t % 1440

/-- The session anchor `pd.Timestamp("09:35:00").time()` as a minute count. -/
def anchorTod : ℕ := 9 * 60 + 35

/-- One OHLC bar (a row of the DataFrame).  Field names follow the column
names used by the source (`candle["Open"]`, ...); `name` is the row label,
i.e. the bar's timestamp (`candle.name`). -/
structure Bar where
  Open : ℚ
  High : ℚ
  Low : ℚ
  Close : ℚ
  name : ℕ

/-- The `Trade` dataclass of the source, field for field.  `result` is the
string `"Profit"` or `"Loss"` exactly as in the source. -/
structure Trade where
  entry_price : ℚ
  exit_price : ℚ
  result : String
  position_size : ℤ
  entry_time : ℕ
  exit_time : ℕ

/-- The loop-local entry variables of `ORBStrategy.backtest`
(`entry_price`, `stop_loss`, `profit_target`, `position_size`,
`entry_time`), which persist across loop iterations in Python function
scope. -/
structure Pending where
  entry_price : ℚ
  stop_loss : ℚ
  profit_target : ℚ
  position_size : ℤ
  entry_time : ℕ

/-- The mutable state of one `ORBStrategy` instance during `backtest`:
`self.capital`, `self.position` (0 flat, 1 long, -1 short), `self.trades`
(instrumented with the direction at close, see the file docstring), and the
loop-local entry variables. -/
structure EngineState where
  capital : ℚ
  position : ℤ
  trades : List (Trade × ℤ)
  pending : Pending

/-- The runtime error the engine can raise: `ZeroDivisionError`, from the
division in `calculate_position_size` when the risk is zero. -/
inductive Err where
  | zeroDivisionError

/-- The constructor arguments of `ORBStrategy.__init__`
(`symbol`, `initial_capital`, `risk_percent`). -/
structure ORBConfig where
  symbol : String
  initial_capital : ℚ
  risk_percent : ℚ

/-- `ORBStrategy.__init__`: stores the configuration unchecked and sets
`capital = initial_capital`, `position = 0`, `trades = []`.  The pending
fields are zero-initialised placeholders (see the file docstring). -/
def initState (cfg : ORBConfig) : EngineState :=
  { capital := cfg.initial_capital
    position := 0
    trades := []
    pending := { entry_price := 0, stop_loss := 0, profit_target := 0
                 position_size := 0, entry_time := 0 } }

/-- `ORBStrategy.calculate_position_size`:
`risk = abs(entry_price - stop_loss); return int((capital * risk_percent) / risk)`.
When `risk == 0` the Python division raises `ZeroDivisionError`. -/
def calculate_position_size (capital risk_percent entry_price stop_loss : ℚ) :
    Except Err ℤ :=
  let risk := |entry_price - stop_loss|
  if risk = 0 then .error .zeroDivisionError
  else .ok (pyInt ((capital * risk_percent) / risk))

/-- `ORBStrategy._close_trade`: appends the `Trade` record, adds
`(exit_price - entry_price) * position_size * self.position` to `capital`,
and resets `position` to 0.  The appended log entry also records
`self.position` at this moment (the direction; instrumentation only). -/
def close_trade (st : EngineState) (exit_price : ℚ) (result : String)
    (position_size : ℤ) (entry_price : ℚ) (entry_time exit_time : ℕ) :
    EngineState :=
  let t : Trade :=
    { entry_price := entry_price, exit_price := exit_price, result := result
      position_size := position_size, entry_time := entry_time
      exit_time := exit_time }
  { st with
    trades := st.trades ++ [(t, st.position)]
    capital := st.capital
      + (exit_price - entry_price) * (position_size : ℚ) * (st.position : ℚ)
    position := 0 }

/-- `ORBStrategy.process_trade`: exit detection on one bar.  Long
(`position == 1`): stop first (`Low <= stop_loss`, close at stop, "Loss"),
else target (`High >= profit_target`, close at target, "Profit").  Short
(`position == -1`): stop first (`High >= stop_loss`), else target
(`Low <= profit_target`).  The source also returns a bool which `backtest`
ignores; it is dropped here. -/
def process_trade (st : EngineState) (current_candle : Bar) (p : Pending) :
    EngineState :=
  if st.position = 1 then
    if current_candle.Low ≤ p.stop_loss then
      close_trade st p.stop_loss "Loss" p.position_size p.entry_price
        p.entry_time current_candle.name
    else if current_candle.High ≥ p.profit_target then
      close_trade st p.profit_target "Profit" p.position_size p.entry_price
        p.entry_time current_candle.name
    else st
  else if st.position = -1 then
    if current_candle.High ≥ p.stop_loss then
      close_trade st p.stop_loss "Loss" p.position_size p.entry_price
        p.entry_time current_candle.name
    else if current_candle.Low ≤ p.profit_target then
      close_trade st p.profit_target "Profit" p.position_size p.entry_price
        p.entry_time current_candle.name
    else st
  else st

/-- The signal-detection half of one `backtest` loop iteration
(src/first.py lines 127-152): on an anchor-time bar, branch on the previous
bar; bullish assigns the long entry variables and `position = 1`, bearish the
short ones and `position = -1`, flat leaves everything; afterwards, if
`position != 0`, `entry_time` is (re)assigned to the current bar's
timestamp.  Note the source runs this even when a position is already
open. -/
def signalPhase (risk_percent : ℚ) (st : EngineState)
    (previous_candle current_candle : Bar) : Except Err EngineState :=
  if tod current_candle.name = anchorTod then
    let opening_range_high := previous_candle.High
    let opening_range_low := previous_candle.Low
    let branch : Except Err EngineState :=
      if previous_candle.Close > previous_candle.Open then
        let entry_price := current_candle.Open
        let stop_loss := opening_range_low
        let risk := entry_price - stop_loss
        let profit_target := entry_price + risk * 10
        match calculate_position_size st.capital risk_percent entry_price
            stop_loss with
        | .error e => .error e
        | .ok position_size =>
          .ok { st with
                position := 1
                pending := { st.pending with
                  entry_price := entry_price, stop_loss := stop_loss
                  profit_target := profit_target
                  position_size := position_size } }
      else if previous_candle.Close < previous_candle.Open then
        let entry_price := current_candle.Open
        let stop_loss := opening_range_high
        let risk := stop_loss - entry_price
        let profit_target := entry_price - risk * 10
        match calculate_position_size st.capital risk_percent entry_price
            stop_loss with
        | .error e => .error e
        | .ok position_size =>
          .ok { st with
                position := -1
                pending := { st.pending with
                  entry_price := entry_price, stop_loss := stop_loss
                  profit_target := profit_target
                  position_size := position_size } }
      else .ok st
    match branch with
    | .error e => .error e
    | .ok st1 =>
      .ok (if st1.position ≠ 0 then
            { st1 with pending :=
              { st1.pending with entry_time := current_candle.name } }
          else st1)
  else .ok st

/-- One full iteration of the `backtest` loop body for `current_candle`
with predecessor `previous_candle`: the signal phase, then
`if self.position != 0: self.process_trade(...)` with the (possibly just
assigned) pending entry variables. -/
def stepBar (risk_percent : ℚ) (st : EngineState)
    (previous_candle current_candle : Bar) : Except Err EngineState :=
  match signalPhase risk_percent st previous_candle current_candle with
  | .error e => .error e
  | .ok st1 =>
    .ok (if st1.position ≠ 0 then process_trade st1 current_candle st1.pending
         else st1)

/-- The `for i in range(1, len(data))` loop of `ORBStrategy.backtest`:
processes each bar with its predecessor, threading the engine state. -/
def backtestLoop (risk_percent : ℚ) (st : EngineState) (previous_candle : Bar) :
    List Bar → Except Err EngineState
  | [] => .ok st
  | current_candle :: rest =>
    match stepBar risk_percent st previous_candle current_candle with
    | .error e => .error e
    | .ok st1 => backtestLoop risk_percent st1 current_candle rest

/-- A fresh `ORBStrategy(cfg).backtest(data)` run, returning the final
engine state (for a series with fewer than two bars the loop body never
runs). -/
def runBacktest (cfg : ORBConfig) (data : List Bar) : Except Err EngineState :=
  match data with
  | [] => .ok (initState cfg)
  | b :: rest => backtestLoop cfg.risk_percent (initState cfg) b rest

/-- `ORBStrategy.backtest`'s return value: `(self.trades, self.capital)`,
with the instrumentation direction projected away. -/
def backtest (cfg : ORBConfig) (data : List Bar) :
    Except Err (List Trade × ℚ) :=
  (runBacktest cfg data).map fun s => (s.trades.map Prod.fst, s.capital)

/-- The pnl `_close_trade` adds to capital for one instrumented log entry:
`(exit_price - entry_price) * position_size * direction`. -/
def tradePnl (td : Trade × ℤ) : ℚ :=
  (td.1.exit_price - td.1.entry_price) * (td.1.position_size : ℚ) * (td.2 : ℚ)

/-- Sum of the pnl of a list of instrumented log entries. -/
def sumPnl (l : List (Trade × ℤ)) : ℚ := (l.map tradePnl).sum

/-- The bar series is ordered by timestamp (the input guarantee of §3 of the
spec, stated with `≤` between consecutive bars). -/
def tsMono : List Bar → Prop
  | [] => True
  | [_] => True
  | a :: b :: rest => a.name ≤ b.name ∧ tsMono (b :: rest)

/-- Capital-conservation invariant: the running capital is the initial
capital plus the pnl of every closed trade, and every recorded close
direction is `±1`. -/
def InvCap (c0 : ℚ) (st : EngineState) : Prop :=
  st.capital = c0 + sumPnl st.trades ∧ ∀ td ∈ st.trades, td.2 = 1 ∨ td.2 = -1

/-- Timestamp invariant: every recorded trade has `entry_time ≤ exit_time`,
and while a position is open its pending `entry_time` is at most `bound`
(the timestamp of the last processed bar). -/
def InvTime (bound : ℕ) (st : EngineState) : Prop :=
  (∀ td ∈ st.trades, td.1.entry_time ≤ td.1.exit_time) ∧
  (st.position ≠ 0 → st.pending.entry_time ≤ bound)

/-- Concrete fixture: the source's default configuration
(`initial_capital = 25000`, `risk_percent = 0.01`). -/
def cfg0 : ORBConfig := ⟨"SPY", 25000, 1/100⟩

/-- Concrete fixture: a small account (`capital * risk_percent < risk`). -/
def cfgS : ORBConfig := ⟨"SPY", 50, 1/100⟩

/-- Concrete fixture: an invalid configuration (negative capital,
`risk_percent > 1`). -/
def cfgBad : ORBConfig := ⟨"SPY", -1, 2⟩

/-- Fixture bar: day 1, 09:30, bullish (`Close 102 > Open 100`). -/
def b0 : Bar := ⟨100, 103, 99, 102, 570⟩

/-- Fixture bar: day 1, 09:35 anchor bar that touches neither the stop 99
nor the target 132. -/
def b1 : Bar := ⟨102, 103, 100, 101, 575⟩

/-- Fixture bar: day 2, 09:30, bullish; touches neither level of the
position carried from day 1. -/
def b2 : Bar := ⟨110, 113, 109, 112, 2010⟩

/-- Fixture bar: day 2, 09:35 anchor bar; touches neither the new stop 109
nor the new target 142. -/
def b3 : Bar := ⟨112, 113, 111, 112, 2015⟩

/-- Fixture bar: a 09:35 anchor bar whose own low 98 breaches the stop 99,
closing the just-opened long on the entry bar. -/
def a1 : Bar := ⟨102, 103, 98, 100, 575⟩

/-- Fixture bar: a 09:35 anchor bar for the small account: risk 1, size
`int(0.5) = 0`, and its low 98 breaches the stop 99. -/
def e1 : Bar := ⟨100, 101, 98, 99, 575⟩

/-- Fixture bar: a 09:35 anchor bar opening exactly at the previous low
(`Open 99 = b0.Low`), so the computed risk is zero. -/
def d1 : Bar := ⟨99, 103, 98, 100, 575⟩

/-- Fixture trade: the long opened at 102 on `a1` and stopped out at 99 on
the same bar. -/
def trA : Trade := ⟨102, 99, "Loss", 83, 575, 575⟩

/-- Fixture state: the final state of `runBacktest cfg0 [b0, a1]`. -/
def sA : EngineState := ⟨24751, 0, [(trA, 1)], ⟨102, 99, 132, 83, 575⟩⟩

/-- Fixture state: the final state of `runBacktest cfg0 [b0, b1]` (long still
open). -/
def sB : EngineState := ⟨25000, 1, [], ⟨102, 99, 132, 83, 575⟩⟩

/-! ## Helper lemmas -/

/-- Evaluation of the signal phase off the anchor time: nothing happens. -/
theorem signalPhase_nonanchor (risk_percent : ℚ) (st : EngineState)
    (prev cur : Bar) (ha : ¬ tod cur.name = anchorTod) :
    signalPhase risk_percent st prev cur = .ok st := by
  simp [signalPhase, ha]

/-- Evaluation of the signal phase on an anchor bar with a bullish previous
bar: the long entry variables are assigned (or sizing raises). -/
theorem signalPhase_bullish (risk_percent : ℚ) (st : EngineState)
    (prev cur : Bar) (ha : tod cur.name = anchorTod)
    (hb : prev.Close > prev.Open) :
    signalPhase risk_percent st prev cur =
      match calculate_position_size st.capital risk_percent cur.Open
          prev.Low with
      | .error e => .error e
      | .ok sz =>
        .ok { st with
              position := 1
              pending := ⟨cur.Open, prev.Low,
                cur.Open + (cur.Open - prev.Low) * 10, sz, cur.name⟩ } := by
  cases hcs : calculate_position_size st.capital risk_percent cur.Open
      prev.Low with
  | error e => simp [signalPhase, ha, hb, hcs]
  | ok sz => simp [signalPhase, ha, hb, hcs]

/-- Evaluation of the signal phase on an anchor bar with a bearish previous
bar: the short entry variables are assigned (or sizing raises). -/
theorem signalPhase_bearish (risk_percent : ℚ) (st : EngineState)
    (prev cur : Bar) (ha : tod cur.name = anchorTod)
    (hs : prev.Close < prev.Open) :
    signalPhase risk_percent st prev cur =
      match calculate_position_size st.capital risk_percent cur.Open
          prev.High with
      | .error e => .error e
      | .ok sz =>
        .ok { st with
              position := -1
              pending := ⟨cur.Open, prev.High,
                cur.Open - (prev.High - cur.Open) * 10, sz, cur.name⟩ } := by
  have hb : ¬ prev.Close > prev.Open := fun hcon => absurd hs (lt_asymm hcon)
  cases hcs : calculate_position_size st.capital risk_percent cur.Open
      prev.High with
  | error e => simp [signalPhase, ha, hb, hs, hcs]
  | ok sz => simp [signalPhase, ha, hb, hs, hcs]

/-- Evaluation of the signal phase on an anchor bar whose previous bar is
flat (`Close == Open`): no position is opened, but if one is already open
its `entry_time` is re-stamped. -/
theorem signalPhase_flat (risk_percent : ℚ) (st : EngineState)
    (prev cur : Bar) (ha : tod cur.name = anchorTod)
    (he : prev.Close = prev.Open) :
    signalPhase risk_percent st prev cur =
      .ok (if st.position ≠ 0 then
            { st with pending := { st.pending with entry_time := cur.name } }
          else st) := by
  simp [signalPhase, ha, he]

/-- The signal phase never touches capital or the trade log, and it either
stamps `entry_time` with the current bar's timestamp or leaves the pending
record and the position untouched. -/
theorem signalPhase_ok (risk_percent : ℚ) (st : EngineState)
    (prev cur : Bar) (st1 : EngineState)
    (h : signalPhase risk_percent st prev cur = .ok st1) :
    st1.capital = st.capital ∧ st1.trades = st.trades ∧
    (st1.pending.entry_time = cur.name ∨
      (st1.pending = st.pending ∧ st1.position = st.position)) := by
  by_cases ha : tod cur.name = anchorTod
  · rcases lt_trichotomy prev.Close prev.Open with hs | he | hb
    · rw [signalPhase_bearish risk_percent st prev cur ha hs] at h
      cases hcs : calculate_position_size st.capital risk_percent cur.Open
          prev.High with
      | error e => rw [hcs] at h; exact absurd h (by simp)
      | ok sz =>
        rw [hcs] at h
        cases h
        simp
    · rw [signalPhase_flat risk_percent st prev cur ha he] at h
      cases h
      split
      · simp
      · exact ⟨rfl, rfl, .inr ⟨rfl, rfl⟩⟩
    · rw [signalPhase_bullish risk_percent st prev cur ha hb] at h
      cases hcs : calculate_position_size st.capital risk_percent cur.Open
          prev.Low with
      | error e => rw [hcs] at h; exact absurd h (by simp)
      | ok sz =>
        rw [hcs] at h
        cases h
        simp
  · rw [signalPhase_nonanchor risk_percent st prev cur ha] at h
    cases h
    exact ⟨rfl, rfl, .inr ⟨rfl, rfl⟩⟩

/-- `process_trade` either leaves the state unchanged or performs exactly
one `_close_trade`: it appends one trade tagged with the current position
(which is `±1`), adds that trade's pnl to capital, zeroes the position and
leaves the pending record alone. -/
theorem process_trade_spec (st : EngineState) (cur : Bar) (p : Pending) :
    process_trade st cur p = st ∨
    ∃ t : Trade,
      process_trade st cur p =
        { st with
          trades := st.trades ++ [(t, st.position)]
          capital := st.capital + tradePnl (t, st.position)
          position := 0 } ∧
      (st.position = 1 ∨ st.position = -1) ∧
      t.entry_time = p.entry_time ∧ t.exit_time = cur.name := by
  unfold process_trade
  split
  · rename_i h1
    split
    · right
      exact ⟨⟨p.entry_price, p.stop_loss, "Loss", p.position_size,
        p.entry_time, cur.name⟩, by simp [close_trade, tradePnl], .inl h1,
        rfl, rfl⟩
    · split
      · right
        exact ⟨⟨p.entry_price, p.profit_target, "Profit", p.position_size,
          p.entry_time, cur.name⟩, by simp [close_trade, tradePnl], .inl h1,
          rfl, rfl⟩
      · left; rfl
  · split
    · rename_i hm1
      split
      · right
        exact ⟨⟨p.entry_price, p.stop_loss, "Loss", p.position_size,
          p.entry_time, cur.name⟩, by simp [close_trade, tradePnl], .inr hm1,
          rfl, rfl⟩
      · split
        · right
          exact ⟨⟨p.entry_price, p.profit_target, "Profit", p.position_size,
            p.entry_time, cur.name⟩, by simp [close_trade, tradePnl],
            .inr hm1, rfl, rfl⟩
        · left; rfl
    · left; rfl

/-- `process_trade` never touches the pending entry variables. -/
theorem process_trade_pending (st : EngineState) (cur : Bar) (p : Pending) :
    (process_trade st cur p).pending = st.pending := by
  rcases process_trade_spec st cur p with h | ⟨t, h, _, _, _⟩ <;> rw [h]

/-- A successful `stepBar` is a successful signal phase followed by the
guarded exit check. -/
theorem stepBar_ok (risk_percent : ℚ) (st : EngineState) (prev cur : Bar)
    (st' : EngineState) (h : stepBar risk_percent st prev cur = .ok st') :
    ∃ st1, signalPhase risk_percent st prev cur = .ok st1 ∧
      st' = if st1.position ≠ 0 then process_trade st1 cur st1.pending
            else st1 := by
  unfold stepBar at h
  split at h
  · exact absurd h (by simp)
  · rename_i st1 heq
    cases h
    exact ⟨st1, heq, rfl⟩

/-- Appending one log entry adds its pnl to the sum. -/
theorem sumPnl_append (l : List (Trade × ℤ)) (td : Trade × ℤ) :
    sumPnl (l ++ [td]) = sumPnl l + tradePnl td := by
  simp [sumPnl]

/-- One loop iteration preserves the capital-conservation invariant. -/
theorem stepBar_invCap (c0 risk_percent : ℚ) (st : EngineState)
    (prev cur : Bar) (st' : EngineState)
    (h : stepBar risk_percent st prev cur = .ok st') (hI : InvCap c0 st) :
    InvCap c0 st' := by
  obtain ⟨st1, hsig, hst'⟩ := stepBar_ok risk_percent st prev cur st' h
  obtain ⟨hcap, htr, -⟩ := signalPhase_ok risk_percent st prev cur st1 hsig
  have hI1 : InvCap c0 st1 := by
    refine ⟨?_, ?_⟩
    · rw [hcap, htr]; exact hI.1
    · rw [htr]; exact hI.2
  subst hst'
  split
  · rcases process_trade_spec st1 cur st1.pending with heq | ⟨t, heq, hdir, -, -⟩
    · rw [heq]; exact hI1
    · rw [heq]
      refine ⟨?_, ?_⟩
      · simp only [sumPnl_append, hI1.1]; ring
      · intro td htd
        rcases List.mem_append.mp htd with hmem | hmem
        · exact hI1.2 td hmem
        · simp only [List.mem_singleton] at hmem
          subst hmem
          exact hdir
  · exact hI1

/-- One loop iteration preserves the timestamp invariant, advancing its
bound to the current bar's timestamp. -/
theorem stepBar_invTime (risk_percent : ℚ) (b : ℕ) (st : EngineState)
    (prev cur : Bar) (st' : EngineState)
    (h : stepBar risk_percent st prev cur = .ok st') (hb : b ≤ cur.name)
    (hI : InvTime b st) : InvTime cur.name st' := by
  obtain ⟨st1, hsig, hst'⟩ := stepBar_ok risk_percent st prev cur st' h
  obtain ⟨-, htr, hpe⟩ := signalPhase_ok risk_percent st prev cur st1 hsig
  have hI1 : InvTime cur.name st1 := by
    refine ⟨?_, ?_⟩
    · rw [htr]; exact hI.1
    · intro hp
      rcases hpe with he | ⟨hpend, hpos⟩
      · rw [he]
      · rw [hpend]
        exact le_trans (hI.2 (by rw [hpos] at hp; exact hp)) hb
  subst hst'
  split
  · rename_i hp1
    rcases process_trade_spec st1 cur st1.pending with
      heq | ⟨t, heq, -, het, hxt⟩
    · rw [heq]; exact hI1
    · rw [heq]
      refine ⟨?_, ?_⟩
      · intro td htd
        rcases List.mem_append.mp htd with hmem | hmem
        · exact hI1.1 td hmem
        · simp only [List.mem_singleton] at hmem
          subst hmem
          rw [het, hxt]
          exact hI1.2 hp1
      · intro h0
        exact absurd rfl h0
  · exact hI1

/-- The loop preserves the capital-conservation invariant. -/
theorem backtestLoop_invCap (c0 risk_percent : ℚ) :
    ∀ (rest : List Bar) (prev : Bar) (st s : EngineState),
      backtestLoop risk_percent st prev rest = .ok s → InvCap c0 st →
      InvCap c0 s := by
  intro rest
  induction rest with
  | nil =>
    intro prev st s h hI
    unfold backtestLoop at h
    cases h
    exact hI
  | cons cur rest ih =>
    intro prev st s h hI
    unfold backtestLoop at h
    split at h
    · exact absurd h (by simp)
    · rename_i st1 hstep
      exact ih cur st1 s h
        (stepBar_invCap c0 risk_percent st prev cur st1 hstep hI)

/-- The loop preserves the timestamp invariant when the series is ordered
by timestamp. -/
theorem backtestLoop_invTime (risk_percent : ℚ) :
    ∀ (rest : List Bar) (prev : Bar) (st s : EngineState),
      tsMono (prev :: rest) →
      backtestLoop risk_percent st prev rest = .ok s →
      InvTime prev.name st →
      ∀ td ∈ s.trades, td.1.entry_time ≤ td.1.exit_time := by
  intro rest
  induction rest with
  | nil =>
    intro prev st s _ h hI
    unfold backtestLoop at h
    cases h
    exact hI.1
  | cons cur rest ih =>
    intro prev st s hm h hI
    unfold backtestLoop at h
    split at h
    · exact absurd h (by simp)
    · rename_i st1 hstep
      exact ih cur st1 s hm.2 h
        (stepBar_invTime risk_percent prev.name st prev cur st1 hstep
          hm.1 hI)

/-- A successful run satisfies the capital-conservation invariant. -/
theorem runBacktest_invCap (cfg : ORBConfig) (data : List Bar)
    (s : EngineState) (h : runBacktest cfg data = .ok s) :
    InvCap cfg.initial_capital s := by
  have hinit : InvCap cfg.initial_capital (initState cfg) := by
    refine ⟨?_, ?_⟩
    · simp [initState, sumPnl]
    · intro td htd
      simp [initState] at htd
  cases data with
  | nil =>
    unfold runBacktest at h
    cases h
    exact hinit
  | cons b rest =>
    exact backtestLoop_invCap cfg.initial_capital cfg.risk_percent rest b
      (initState cfg) s h hinit

/-- On an anchor bar with a bullish previous bar and a nonzero risk, the
signal phase succeeds and assigns the long entry variables, whatever the
prior state (in particular whatever the configuration and the current
position). -/
theorem signalPhase_bullish_opens (risk_percent : ℚ) (st : EngineState)
    (prev cur : Bar) (ha : tod cur.name = anchorTod)
    (hb : prev.Close > prev.Open) (hr : cur.Open ≠ prev.Low) :
    signalPhase risk_percent st prev cur =
      .ok { st with
            position := 1
            pending := ⟨cur.Open, prev.Low,
              cur.Open + (cur.Open - prev.Low) * 10,
              pyInt (st.capital * risk_percent / |cur.Open - prev.Low|),
              cur.name⟩ } := by
  have hrisk : ¬ |cur.Open - prev.Low| = 0 :=
    abs_ne_zero.mpr (sub_ne_zero.mpr hr)
  rw [signalPhase_bullish risk_percent st prev cur ha hb]
  simp only [calculate_position_size]
  rw [if_neg hrisk]

/-- A successful signal phase that leaves a nonzero position is followed by
the exit check on the same bar. -/
theorem stepBar_of_signal_open (risk_percent : ℚ) (st st1 : EngineState)
    (prev cur : Bar) (hsig : signalPhase risk_percent st prev cur = .ok st1)
    (hp : st1.position ≠ 0) :
    stepBar risk_percent st prev cur =
      .ok (process_trade st1 cur st1.pending) := by
  unfold stepBar
  rw [hsig]
  simp [hp]

/-- A two-bar run is exactly one loop iteration from the initial state. -/
theorem runBacktest_pair (cfg : ORBConfig) (prev cur : Bar) (s : EngineState)
    (hstep : stepBar cfg.risk_percent (initState cfg) prev cur = .ok s) :
    runBacktest cfg [prev, cur] = .ok s := by
  simp [runBacktest, backtestLoop, hstep]

/-! ## Claim theorems -/

/-- Claim C1: for every bar series, the final capital of a successful
`backtest` run equals `initial_capital` plus the sum, over all closed trades
in the trade log, of `(exit_price - entry_price) * position_size * direction`
(`sumPnl`), where the direction recorded at close is `+1` for a long close
and `-1` for a short close; capital changes only through `_close_trade`,
exactly once per logged trade (the invariant transported by
`stepBar_invCap`). -/
theorem capital_conservation (cfg : ORBConfig) (data : List Bar)
    (s : EngineState) (h : runBacktest cfg data = .ok s) :
    s.capital = cfg.initial_capital + sumPnl s.trades ∧
    ∀ td ∈ s.trades, td.2 = 1 ∨ td.2 = -1 :=
  runBacktest_invCap cfg data s h

/-- Witness for C1: the two-bar run that opens a long at 102 on the anchor
bar `a1` and stops out at 99 on the same bar; final capital
`24751 = 25000 + (99 - 102) * 83 * 1`. -/
theorem capital_conservation_witness :
    sA.capital = cfg0.initial_capital + sumPnl sA.trades ∧
    ∀ td ∈ sA.trades, td.2 = 1 ∨ td.2 = -1 :=
  capital_conservation cfg0 [b0, a1] sA (by
    norm_num [runBacktest, backtestLoop, stepBar, signalPhase, process_trade,
      close_trade, calculate_position_size, pyInt, initState, tod, anchorTod,
      cfg0, b0, a1, sA, trA])

/-- Claim C2: on an anchor-time bar, the signal detector follows the
previous bar: bullish (`Close > Open`) opens a long with
`entry_price = current.Open`, `stop_loss = previous.Low`,
`profit_target = entry + (entry - stop) * 10`; bearish (`Close < Open`)
opens a short with `stop_loss = previous.High`,
`profit_target = entry - (stop - entry) * 10`; flat (`Close == Open`) opens
nothing (position, trade log and capital are unchanged). -/
theorem signal_rule (risk_percent : ℚ) (st : EngineState) (prev cur : Bar)
    (ha : tod cur.name = anchorTod) :
    (∀ st1, prev.Close > prev.Open →
        signalPhase risk_percent st prev cur = .ok st1 →
        st1.position = 1 ∧ st1.pending.entry_price = cur.Open ∧
        st1.pending.stop_loss = prev.Low ∧
        st1.pending.profit_target = cur.Open + (cur.Open - prev.Low) * 10 ∧
        st1.pending.entry_time = cur.name) ∧
    (∀ st1, prev.Close < prev.Open →
        signalPhase risk_percent st prev cur = .ok st1 →
        st1.position = -1 ∧ st1.pending.entry_price = cur.Open ∧
        st1.pending.stop_loss = prev.High ∧
        st1.pending.profit_target = cur.Open - (prev.High - cur.Open) * 10 ∧
        st1.pending.entry_time = cur.name) ∧
    (∀ st1, prev.Close = prev.Open →
        signalPhase risk_percent st prev cur = .ok st1 →
        st1.position = st.position ∧ st1.trades = st.trades ∧
        st1.capital = st.capital) := by
  refine ⟨?_, ?_, ?_⟩
  · intro st1 hb h
    rw [signalPhase_bullish risk_percent st prev cur ha hb] at h
    cases hcs : calculate_position_size st.capital risk_percent cur.Open
        prev.Low with
    | error e => rw [hcs] at h; exact absurd h (by simp)
    | ok sz => rw [hcs] at h; cases h; exact ⟨rfl, rfl, rfl, rfl, rfl⟩
  · intro st1 hs h
    rw [signalPhase_bearish risk_percent st prev cur ha hs] at h
    cases hcs : calculate_position_size st.capital risk_percent cur.Open
        prev.High with
    | error e => rw [hcs] at h; exact absurd h (by simp)
    | ok sz => rw [hcs] at h; cases h; exact ⟨rfl, rfl, rfl, rfl, rfl⟩
  · intro st1 he h
    rw [signalPhase_flat risk_percent st prev cur ha he] at h
    cases h
    split
    · exact ⟨rfl, rfl, rfl⟩
    · exact ⟨rfl, rfl, rfl⟩

/-- Witness for C2 (bullish branch): `b0` is bullish, so the signal phase on
the anchor bar `b1` opens the long `sB` with entry 102, stop 99, target
132. -/
theorem signal_rule_witness :
    sB.position = 1 ∧ sB.pending.entry_price = b1.Open ∧
    sB.pending.stop_loss = b0.Low ∧
    sB.pending.profit_target = b1.Open + (b1.Open - b0.Low) * 10 ∧
    sB.pending.entry_time = b1.name :=
  (signal_rule cfg0.risk_percent (initState cfg0) b0 b1
      (by norm_num [tod, anchorTod, b1])).1 sB
    (by norm_num [b0])
    (by norm_num [signalPhase, calculate_position_size, pyInt, initState,
      tod, anchorTod, cfg0, b0, b1, sB])

/-- Claim C3: when one bar simultaneously satisfies both the stop-loss and
the profit-target condition of an open position, `process_trade` closes at
the stop-loss price with result `"Loss"`, never `"Profit"`, for long and
short positions alike. -/
theorem stop_priority (st : EngineState) (cur : Bar) (p : Pending) :
    (st.position = 1 → cur.Low ≤ p.stop_loss → cur.High ≥ p.profit_target →
      (process_trade st cur p).trades =
        st.trades ++ [(⟨p.entry_price, p.stop_loss, "Loss", p.position_size,
          p.entry_time, cur.name⟩, st.position)]) ∧
    (st.position = -1 → cur.High ≥ p.stop_loss → cur.Low ≤ p.profit_target →
      (process_trade st cur p).trades =
        st.trades ++ [(⟨p.entry_price, p.stop_loss, "Loss", p.position_size,
          p.entry_time, cur.name⟩, st.position)]) := by
  constructor
  · intro h1 hlow _
    unfold process_trade
    rw [if_pos h1, if_pos hlow]
    simp [close_trade]
  · intro hm1 hhigh _
    unfold process_trade
    rw [if_neg (by rw [hm1]; decide), if_pos hm1, if_pos hhigh]
    simp [close_trade]

/-- Witness for C3 (long): a bar with low 98 ≤ stop 99 and high 105 ≥ target
104 satisfies both exit conditions; the close is at the stop, `"Loss"`. -/
theorem stop_priority_witness :
    (process_trade ⟨25000, 1, [], ⟨102, 99, 104, 83, 575⟩⟩
        ⟨103, 105, 98, 100, 580⟩ ⟨102, 99, 104, 83, 575⟩).trades =
      [] ++ [(⟨102, 99, "Loss", 83, 575, 580⟩, 1)] :=
  (stop_priority ⟨25000, 1, [], ⟨102, 99, 104, 83, 575⟩⟩
      ⟨103, 105, 98, 100, 580⟩ ⟨102, 99, 104, 83, 575⟩).1 rfl
    (by norm_num) (by norm_num)

/-- Claim C7, amended: for a series ordered by timestamp, every recorded
trade satisfies `entry_time ≤ exit_time`; strict inequality fails because a
position opened on an anchor bar can be stopped out or take profit on that
same bar (see the counterexample). -/
theorem entry_le_exit (cfg : ORBConfig) (data : List Bar) (s : EngineState)
    (hm : tsMono data) (h : runBacktest cfg data = .ok s) :
    ∀ td ∈ s.trades, td.1.entry_time ≤ td.1.exit_time := by
  cases data with
  | nil =>
    unfold runBacktest at h
    cases h
    intro td htd
    simp [initState] at htd
  | cons b rest =>
    refine backtestLoop_invTime cfg.risk_percent rest b (initState cfg) s hm
      h ⟨?_, ?_⟩
    · intro td htd
      simp [initState] at htd
    · intro hp
      simp [initState] at hp

/-- Witness for the amended C7: the same-bar trade of `sA` still satisfies
`entry_time ≤ exit_time` (`575 ≤ 575`). -/
theorem entry_le_exit_witness :
    trA.entry_time ≤ trA.exit_time :=
  entry_le_exit cfg0 [b0, a1] sA (by norm_num [tsMono, b0, a1]) (by
      norm_num [runBacktest, backtestLoop, stepBar, signalPhase,
        process_trade, close_trade, calculate_position_size, pyInt,
        initState, tod, anchorTod, cfg0, b0, a1, sA, trA])
    (trA, 1) (by norm_num [sA])

/-- Claim C8: for positive capital, `risk_percent ∈ (0,1]` and
`entry_price ≠ stop_loss`, the position sizer returns exactly
`floor((capital * risk_percent) / |entry_price - stop_loss|)` (truncation
toward zero coincides with `floor` because the quotient is nonnegative);
determinism is immediate since the embedded sizer is a pure function of its
four arguments. -/
theorem sizing_formula (capital risk_percent entry_price stop_loss : ℚ)
    (hc : 0 < capital) (hr0 : 0 < risk_percent) (hr1 : risk_percent ≤ 1)
    (hne : entry_price ≠ stop_loss) :
    calculate_position_size capital risk_percent entry_price stop_loss =
      .ok (Int.floor ((capital * risk_percent) / |entry_price - stop_loss|))
    := by
  have hrisk : (0:ℚ) < |entry_price - stop_loss| :=
    abs_pos.mpr (sub_ne_zero.mpr hne)
  have hq : (0:ℚ) ≤ capital * risk_percent / |entry_price - stop_loss| :=
    div_nonneg (mul_pos hc hr0).le hrisk.le
  simp only [calculate_position_size]
  rw [if_neg hrisk.ne']
  simp only [pyInt]
  rw [if_neg (not_lt.mpr hq)]

/-- Witness for C8: `size(100, 0.01, 100, 99) = floor(1/1)`. -/
theorem sizing_formula_witness :
    calculate_position_size 100 (1/100) 100 99 =
      .ok (Int.floor ((100 * ((1:ℚ)/100)) / |(100 : ℚ) - 99|)) :=
  sizing_formula 100 (1/100) 100 99 (by norm_num) (by norm_num)
    (by norm_num) (by norm_num)

/-- Claim C9: a position still open at the end of the series is not
auto-closed: `backtest` returns exactly the log of closed trades and a final
capital of `initial_capital` plus the closed trades' pnl; the open
position's unrealized pnl contributes nothing. -/
theorem no_auto_close (cfg : ORBConfig) (data : List Bar) (s : EngineState)
    (h : runBacktest cfg data = .ok s) (hp : s.position ≠ 0) :
    backtest cfg data =
      .ok (s.trades.map Prod.fst, cfg.initial_capital + sumPnl s.trades) := by
  have hc := (runBacktest_invCap cfg data s h).1
  unfold backtest
  rw [h]
  simp [Except.map, hc]

/-- Witness for C9: the run `[b0, b1]` ends long (`sB.position = 1`) and
returns an empty trade list and the untouched initial capital. -/
theorem no_auto_close_witness :
    backtest cfg0 [b0, b1] =
      .ok (sB.trades.map Prod.fst, cfg0.initial_capital + sumPnl sB.trades) :=
  no_auto_close cfg0 [b0, b1] sB (by
      norm_num [runBacktest, backtestLoop, stepBar, signalPhase,
        process_trade, close_trade, calculate_position_size, pyInt,
        initState, tod, anchorTod, cfg0, b0, b1, sB])
    (by norm_num [sB])

/-- Counterexample to C4 as stated: with a long opened on day 1 still open
(`sB`, entry 102), the day-2 anchor bar `b3` makes the signal detector
re-enter: the final state again holds one long but with entry fields
overwritten to entry 112 / stop 109, while the trade log is still empty —
the day-1 position was replaced without ever being closed. -/
theorem reentry_cex :
    runBacktest cfg0 [b0, b1] = .ok sB ∧
    runBacktest cfg0 [b0, b1, b2, b3] =
      .ok ⟨25000, 1, [], ⟨112, 109, 142, 83, 2015⟩⟩ ∧
    sB.position = 1 ∧ sB.pending.entry_price = 102 ∧ (102 : ℚ) ≠ 112 := by
  refine ⟨?_, ?_, by norm_num [sB], by norm_num [sB], by norm_num⟩ <;>
    norm_num [runBacktest, backtestLoop, stepBar, signalPhase, process_trade,
      close_trade, calculate_position_size, pyInt, initState, tod, anchorTod,
      cfg0, b0, b1, b2, b3, sB]

/-- Claim C4, amended: the engine never holds two positions at once (the
state has a single position slot), but the signal detector is NOT guarded
by flatness: on an anchor bar with a bullish previous bar it re-enters even
while a position is open, overwriting the open position's entry fields
without closing it (trade log and capital untouched). -/
theorem reentry_overwrites (risk_percent : ℚ) (st : EngineState)
    (prev cur : Bar) (hpos : st.position ≠ 0) (ha : tod cur.name = anchorTod)
    (hb : prev.Close > prev.Open) (hr : cur.Open ≠ prev.Low) :
    ∃ st1, signalPhase risk_percent st prev cur = .ok st1 ∧
      st1.position = 1 ∧ st1.pending.entry_price = cur.Open ∧
      st1.pending.entry_time = cur.name ∧ st1.trades = st.trades ∧
      st1.capital = st.capital :=
  ⟨_, signalPhase_bullish_opens risk_percent st prev cur ha hb hr,
    rfl, rfl, rfl, rfl, rfl⟩

/-- Witness for the amended C4: the day-2 anchor bar `b3` overwrites the
still-open long `sB`. -/
theorem reentry_overwrites_witness :
    ∃ st1, signalPhase cfg0.risk_percent sB b2 b3 = .ok st1 ∧
      st1.position = 1 ∧ st1.pending.entry_price = b3.Open ∧
      st1.pending.entry_time = b3.name ∧ st1.trades = sB.trades ∧
      st1.capital = sB.capital :=
  reentry_overwrites cfg0.risk_percent sB b2 b3 (by norm_num [sB])
    (by norm_num [tod, anchorTod, b3]) (by norm_num [b2])
    (by norm_num [b2, b3])

/-- Counterexample to C5 as stated: on the anchor bar `d1`, whose open 99
equals the previous low (`b0.Low`), the engine does not skip the session —
the whole run raises `ZeroDivisionError`. -/
theorem degenerate_risk_cex :
    runBacktest cfg0 [b0, d1] = .error .zeroDivisionError ∧
    d1.Open = b0.Low := by
  refine ⟨?_, by norm_num [d1, b0]⟩
  norm_num [runBacktest, backtestLoop, stepBar, signalPhase, process_trade,
    close_trade, calculate_position_size, pyInt, initState, tod, anchorTod,
    cfg0, b0, d1]

/-- Claim C5, amended: when the computed risk is zero (entry price equal to
the stop level) the engine does not skip the trade — position sizing
divides by zero and the run aborts with `ZeroDivisionError`, in both the
bullish and the bearish branch. -/
theorem degenerate_risk_raises (risk_percent : ℚ) (st : EngineState)
    (prev cur : Bar) (ha : tod cur.name = anchorTod) :
    (prev.Close > prev.Open → cur.Open = prev.Low →
      signalPhase risk_percent st prev cur = .error .zeroDivisionError) ∧
    (prev.Close < prev.Open → cur.Open = prev.High →
      signalPhase risk_percent st prev cur = .error .zeroDivisionError) := by
  constructor
  · intro hb he
    rw [signalPhase_bullish risk_percent st prev cur ha hb]
    simp only [calculate_position_size]
    rw [if_pos (by rw [he, sub_self, abs_zero])]
  · intro hs he
    rw [signalPhase_bearish risk_percent st prev cur ha hs]
    simp only [calculate_position_size]
    rw [if_pos (by rw [he, sub_self, abs_zero])]

/-- Witness for the amended C5: the degenerate anchor bar `d1` aborts the
signal phase with `ZeroDivisionError`. -/
theorem degenerate_risk_raises_witness :
    signalPhase cfg0.risk_percent (initState cfg0) b0 d1 =
      .error .zeroDivisionError :=
  (degenerate_risk_raises cfg0.risk_percent (initState cfg0) b0 d1
      (by norm_num [tod, anchorTod, d1])).1 (by norm_num [b0])
    (by norm_num [b0, d1])

/-- Counterexample to C6 as stated: with capital 50 and risk 1 the computed
size is `int(0.5) = 0`, yet the engine opens the position anyway and, after
the same-bar stop-out, a `Trade` with `position_size = 0` sits in the
returned trade log. -/
theorem zero_size_cex :
    backtest cfgS [b0, e1] = .ok ([⟨100, 99, "Loss", 0, 575, 575⟩], 50) ∧
    (⟨100, 99, "Loss", 0, 575, 575⟩ : Trade).position_size = 0 := by
  refine ⟨?_, rfl⟩
  norm_num [backtest, runBacktest, backtestLoop, stepBar, signalPhase,
    process_trade, close_trade, calculate_position_size, pyInt, initState,
    tod, anchorTod, Except.map, cfgS, b0, e1]

/-- Claim C6, amended: when the computed position size is 0 the engine does
NOT skip the session — it opens the position with `position_size = 0`
anyway (and a zero-size trade can then be recorded, as the counterexample
shows). -/
theorem zero_size_opened (risk_percent : ℚ) (st : EngineState)
    (prev cur : Bar) (ha : tod cur.name = anchorTod)
    (hb : prev.Close > prev.Open) (hr : cur.Open ≠ prev.Low)
    (hz : pyInt (st.capital * risk_percent / |cur.Open - prev.Low|) = 0) :
    ∃ st1, signalPhase risk_percent st prev cur = .ok st1 ∧
      st1.position = 1 ∧ st1.pending.position_size = 0 :=
  ⟨_, signalPhase_bullish_opens risk_percent st prev cur ha hb hr, rfl, hz⟩

/-- Witness for the amended C6: the small account opens a zero-size long on
`e1`. -/
theorem zero_size_opened_witness :
    ∃ st1, signalPhase cfgS.risk_percent (initState cfgS) b0 e1 = .ok st1 ∧
      st1.position = 1 ∧ st1.pending.position_size = 0 :=
  zero_size_opened cfgS.risk_percent (initState cfgS) b0 e1
    (by norm_num [tod, anchorTod, e1]) (by norm_num [b0])
    (by norm_num [b0, e1]) (by norm_num [pyInt, initState, cfgS, b0, e1])

/-- Counterexample to C7 as stated: the anchor bar `a1` dips below the stop
it has just set, so the position opened on `a1` is closed on `a1` itself and
the recorded trade has `entry_time = exit_time = 575`. -/
theorem same_bar_close_cex :
    backtest cfg0 [b0, a1] = .ok ([trA], 24751) ∧
    trA.entry_time = trA.exit_time := by
  refine ⟨?_, rfl⟩
  norm_num [backtest, runBacktest, backtestLoop, stepBar, signalPhase,
    process_trade, close_trade, calculate_position_size, pyInt, initState,
    tod, anchorTod, Except.map, cfg0, b0, a1, trA]

/-- Counterexample to C10 as stated: with negative `initial_capital` and
`risk_percent = 2 > 1` the engine neither raises nor stops before the bars:
the run processes both bars and even opens a (zero-size) long. -/
theorem invalid_config_cex :
    ¬ (0 < cfgBad.initial_capital) ∧ ¬ (cfgBad.risk_percent ≤ 1) ∧
    runBacktest cfgBad [b0, b1] = .ok ⟨-1, 1, [], ⟨102, 99, 132, 0, 575⟩⟩ := by
  refine ⟨by norm_num [cfgBad], by norm_num [cfgBad], ?_⟩
  norm_num [runBacktest, backtestLoop, stepBar, signalPhase, process_trade,
    close_trade, calculate_position_size, pyInt, initState, tod, anchorTod,
    cfgBad, b0, b1]

/-- Claim C10, amended: `ORBStrategy.__init__` performs no validation at
all — for EVERY configuration, valid or not, the engine accepts the values
and runs the backtest with them (here: any configuration processes an
anchor pair and records the entry in its state). -/
theorem no_config_validation (cfg : ORBConfig) (prev cur : Bar)
    (ha : tod cur.name = anchorTod) (hb : prev.Close > prev.Open)
    (hr : cur.Open ≠ prev.Low) :
    ∃ s, runBacktest cfg [prev, cur] = .ok s ∧
      s.pending.entry_price = cur.Open ∧ s.pending.entry_time = cur.name := by
  have hopen := signalPhase_bullish_opens cfg.risk_percent (initState cfg)
    prev cur ha hb hr
  have hstep := stepBar_of_signal_open cfg.risk_percent (initState cfg) _
    prev cur hopen one_ne_zero
  refine ⟨_, runBacktest_pair cfg prev cur _ hstep, ?_, ?_⟩
  · rw [process_trade_pending]
  · rw [process_trade_pending]

/-- Witness for the amended C10: the invalid configuration `cfgBad` is
accepted and the backtest runs with it. -/
theorem no_config_validation_witness :
    ∃ s, runBacktest cfgBad [b0, b1] = .ok s ∧
      s.pending.entry_price = b1.Open ∧ s.pending.entry_time = b1.name :=
  no_config_validation cfgBad b0 b1 (by norm_num [tod, anchorTod, b1])
    (by norm_num [b0]) (by norm_num [b0, b1])

end ORB
